import Mathlib

/-!
Verification of the face-recognition socket server (`src/server.py`).

The server exposes one inbound event, `identify-face`, handled by
`handle_identify_face(sid, base64_image)`:

  - the payload string is split on its first comma when one is present
    (data-URL header stripping), otherwise taken whole;
  - `base64.b64decode` turns the text into a byte buffer (raising
    `binascii.Error` on a malformed encoding, `ValueError` on non-ASCII);
  - `cv2.imdecode` parses the bytes as an image, yielding `None` on failure,
    in which case the handler returns with no outbound event;
  - on success the handler awaits `asyncio.sleep(0.5)` (simulated
    recognition latency) and emits `auth-success` with the constant payload
    `{id: "p123", name: "김철수"}` to the originating session;
  - the whole body sits in `try/except Exception`, whose handler emits
    `auth-fail` to the originating session.

We embed the handler as a pure function from the payload to the list of
events it emits, parameterised by the external image decoder
(`cv2.imdecode`, an opaque collaborator, modelled as a total
`List Nat → Option Image` function per its contract: `None` on parse
failure).  `base64.b64decode` is embedded following CPython's non-strict
`binascii.a2b_base64` loop.  On top of that, a small event-loop machine
(`step`/`run`) models the asyncio scheduling that matters to the claims:
an inbound event runs the handler synchronously up to the `asyncio.sleep`
suspension point, suspended recognitions resume later in FIFO order, and
`sio.emit` delivers only to sessions still registered as connected
(python-socketio drops an emit addressed to a departed sid).
-/

namespace FaceServer

/-- Outbound socket events emitted by the handler: `auth-success` carries
the `{id, name}` payload, `auth-fail` carries none. -/
inductive Event where
  | authSuccess (id : String) (name : String)
  | authFail
deriving DecidableEq, Repr

/-- Errors raised by `base64.b64decode` on a `str` argument:
`nonAscii` models the `ValueError` from encoding a non-ASCII string,
`badBase64` models `binascii.Error` from `a2b_base64`. -/
inductive DecodeError where
  | nonAscii
  | badBase64
deriving DecidableEq, Repr

/-- The canonical decoded bitmap produced by `cv2.imdecode` on success.
The handler never inspects it, so only its existence matters. -/
structure Image where
  pixels : List Nat
deriving DecidableEq, Repr

/-- The base64 alphabet value of a character (`table_a2b_base64` in
CPython's `binascii`), `none` for characters outside the alphabet. -/
def b64Val (c : Char) : Option Nat :=
  if 'A' ≤ c ∧ c ≤ 'Z' then some (c.toNat - 65)
  else if 'a' ≤ c ∧ c ≤ 'z' then some (c.toNat - 97 + 26)
  else if '0' ≤ c ∧ c ≤ '9' then some (c.toNat - 48 + 52)
  else if c = '+' then some 62
  else if c = '/' then some 63
  else none

/-- CPython's `binascii.a2b_base64` main loop with `strict_mode=False`
(the behaviour of `base64.b64decode` with default arguments): characters
outside the alphabet are skipped; `=` at quad position ≥ 2 that completes
a quad ends decoding successfully; leftover quad positions 1, 2 or 3 at
end of input raise `binascii.Error`.  State: remaining input, quad
position, pending high bits, count of pad characters seen, output bytes. -/
def a2bLoop : List Char → Nat → Nat → Nat → List Nat →
    Except DecodeError (List Nat)
  | [], quadPos, _, _, acc =>
      if quadPos = 0 then .ok acc else .error .badBase64
  | c :: cs, quadPos, leftchar, pads, acc =>
      if c = '=' then
        if quadPos ≥ 2 then
          if quadPos + (pads + 1) ≥ 4 then .ok acc
          else a2bLoop cs quadPos leftchar (pads + 1) acc
        else a2bLoop cs quadPos leftchar pads acc
      else
        match b64Val c with
        | none => a2bLoop cs quadPos leftchar pads acc
        | some v =>
          match quadPos with
          | 0 => a2bLoop cs 1 v 0 acc
          | 1 => a2bLoop cs 2 (v % 16) 0 (acc ++ [leftchar * 4 + v / 16])
          | 2 => a2bLoop cs 3 (v % 4) 0 (acc ++ [leftchar * 16 + v / 4])
          | _ => a2bLoop cs 0 0 0 (acc ++ [leftchar * 64 + v])

/-- `base64.b64decode` applied to a `str`: the string is first encoded as
ASCII (non-ASCII characters raise `ValueError`), then fed to
`a2b_base64`. -/
def b64decode (s : List Char) : Except DecodeError (List Nat) :=
  if s.all (fun c => c.toNat < 128) then a2bLoop s 0 0 0 []
  else .error .nonAscii

/-- The characters after the first comma (the second component of
Python's `s.split(',', 1)`). -/
def afterFirstComma : List Char → List Char
  | [] => []
  | c :: cs => if c = ',' then cs else afterFirstComma cs

/-- Lines 69–72 of `server.py`: if the payload contains a comma, the
data is the part after the first comma, otherwise the whole string. -/
def extractData (s : List Char) : List Char :=
  if ',' ∈ s then afterFirstComma s else s

/-- The fallible decode prefix of the handler: header stripping followed
by `base64.b64decode` (lines 69–74 of `server.py`).  `np.frombuffer`
is the identity on the byte buffer and never fails. -/
def decodePhase (p : List Char) : Except DecodeError (List Nat) :=
  b64decode (extractData p)

/-- The constant recognition result of the simulated recognition logic
(line 84 of `server.py`): `{"id": "p123", "name": "김철수"}`. -/
def recognizedUser : Event := .authSuccess "p123" "김철수"

/-- `handle_identify_face` as a function from the inbound payload to the
list of events emitted to the originating session, parameterised by the
external `cv2.imdecode` (total, `none` on parse failure).  The
`try/except Exception` block maps any raised error to a single
`auth-fail` emission; `imdecode` returning `none` hits the
`if img is None: return` silent drop; otherwise, after the simulated
latency, a single `auth-success` with the constant user is emitted. -/
def handle_identify_face (imdecode : List Nat → Option Image)
    (p : List Char) : List Event :=
  match decodePhase p with
  | .error _ => [.authFail]
  | .ok bs =>
    match imdecode bs with
    | none => []
    | some _ => [recognizedUser]

/-- Outcome of running the handler from the start up to its first real
suspension point (`await asyncio.sleep(0.5)`): an exception emits
`auth-fail` at once, a `None` image returns at once with no event, and a
valid image leaves a recognition outstanding. -/
inductive SyncOutcome where
  | failNow
  | dropNow
  | suspendRecognition
deriving DecidableEq, Repr

/-- Classify the synchronous prefix of the handler on a payload. -/
def syncPhase (imdecode : List Nat → Option Image) (p : List Char) :
    SyncOutcome :=
  match decodePhase p with
  | .error _ => .failNow
  | .ok bs =>
    match imdecode bs with
    | none => .dropNow
    | some _ => .suspendRecognition

/-- A recognition call outstanding for a session: the handler coroutine
is parked at `asyncio.sleep` and will emit `auth-success` on resumption. -/
structure PendingRec where
  sid : String
deriving DecidableEq, Repr

/-- Event-loop state: the connected sessions (the transport's registry),
the outstanding recognition calls in FIFO order, and the events actually
delivered to connected sessions, oldest first. -/
structure ServerState where
  connected : List String
  pending : List PendingRec
  delivered : List (String × Event)
deriving DecidableEq, Repr

/-- `sio.emit(event, to=sid)`: the event is delivered only when `sid` is
still a connected session; python-socketio silently drops an emit to a
sid that has disconnected (the sid's room no longer exists), raising
nothing. -/
def emitTo (st : ServerState) (s : String) (e : Event) : ServerState :=
  if s ∈ st.connected then
    { st with delivered := st.delivered ++ [(s, e)] }
  else st

/-- The transport-level occurrences the event loop serves: a connection
opening, an inbound `identify-face` event, the resumption of the oldest
parked recognition (its `asyncio.sleep` elapsing), and a disconnect. -/
inductive Action where
  | openConn (s : String)
  | recv (s : String) (p : List Char)
  | wake
  | close (s : String)
deriving DecidableEq, Repr

/-- One event-loop step.  `recv` runs the handler synchronously to its
first suspension point — `server.py` has no busy guard, so a `recv`
during an outstanding recognition simply parks a second one.  `wake`
resumes the oldest parked recognition, which emits `auth-success` with
the constant user.  `close` removes the session but cancels nothing:
the parked coroutine survives and its later emit is dropped by
`emitTo`. -/
def step (imdecode : List Nat → Option Image) (st : ServerState) :
    Action → ServerState
  | .openConn s => { st with connected := s :: st.connected }
  | .recv s p =>
    match syncPhase imdecode p with
    | .failNow => emitTo st s .authFail
    | .dropNow => st
    | .suspendRecognition => { st with pending := st.pending ++ [⟨s⟩] }
  | .wake =>
    match st.pending with
    | [] => st
    | t :: rest => emitTo { st with pending := rest } t.sid recognizedUser
  | .close s =>
    { st with connected := st.connected.filter (fun x => x ≠ s) }

/-- Run the event loop over a list of actions. -/
def run (imdecode : List Nat → Option Image) :
    ServerState → List Action → ServerState
  | st, [] => st
  | st, a :: as => run imdecode (step imdecode st a) as

/-- The events delivered to session `s`, oldest first. -/
def deliveredTo (st : ServerState) (s : String) : List Event :=
  (st.delivered.filter (fun q => q.1 == s)).map (fun q => q.2)

/-- A concrete image decoder that accepts every byte buffer, for
witnesses that need the valid-image path. -/
def imdecodeAll : List Nat → Option Image :=
  fun bs => some ⟨bs⟩

/-- A concrete image decoder that rejects every byte buffer, for
witnesses that need the unparseable-image path. -/
def imdecodeNone : List Nat → Option Image :=
  fun _ => none

/-! ### Helper lemmas -/

theorem afterFirstComma_append (hdr d : List Char) (hhdr : ',' ∉ hdr) :
    afterFirstComma (hdr ++ ',' :: d) = d := by
  induction hdr with
  | nil => simp [afterFirstComma]
  | cons c cs ih =>
    have hc : c ≠ ',' := fun h => hhdr (by simp [h])
    have hcs : ',' ∉ cs := fun h => hhdr (List.mem_cons_of_mem _ h)
    simp [afterFirstComma, hc, ih hcs]

theorem emitTo_connected (st : ServerState) (s2 : String) (e : Event) :
    (emitTo st s2 e).connected = st.connected := by
  unfold emitTo
  split <;> rfl

theorem deliveredTo_emitTo (st : ServerState) (s s2 : String) (e : Event)
    (hs : s ∉ st.connected) :
    deliveredTo (emitTo st s2 e) s = deliveredTo st s := by
  by_cases h2 : s2 ∈ st.connected
  · have hne : (s2 == s) = false := by
      rw [beq_eq_false_iff_ne]
      intro h
      exact hs (h ▸ h2)
    simp [emitTo, h2, deliveredTo, List.filter_append, hne]
  · simp [emitTo, h2]

/-! ### Claim theorems -/

/-- C6: for every inbound payload containing a comma, only the substring
after the first comma is the encoded payload data; for a payload without
a comma, the entire string is the payload. -/
theorem comma_split_takes_data_after_first_comma
    (hdr d s : List Char) (hhdr : ',' ∉ hdr) (hs : ',' ∉ s) :
    extractData (hdr ++ ',' :: d) = d ∧ extractData s = s := by
  constructor
  · have hmem : ',' ∈ hdr ++ ',' :: d := by simp
    rw [extractData, if_pos hmem]
    exact afterFirstComma_append hdr d hhdr
  · rw [extractData, if_neg hs]

/-- Witness for C6 at the data-URL payload
`"data:image/jpeg;base64,AAAA"`. -/
theorem comma_split_takes_data_after_first_comma_witness :
    (',' ∉ ("data:image/jpeg;base64".toList)) ∧
    (',' ∉ ("AAAA".toList)) ∧
    ("data:image/jpeg;base64".toList ++ ',' :: "AAAA".toList =
      "data:image/jpeg;base64,AAAA".toList) ∧
    (extractData ("data:image/jpeg;base64".toList ++ ',' :: "AAAA".toList) =
       "AAAA".toList ∧
     extractData ("AAAA".toList) = "AAAA".toList) :=
  ⟨by decide, by decide, by decide,
   comma_split_takes_data_after_first_comma _ _ _ (by decide) (by decide)⟩

/-- C1: for every inbound `identify-face` payload that decodes to a valid
image, the handler emits exactly one outbound terminal event to the
originating session (here the `auth-success` branch), never zero and
never two. -/
theorem valid_image_exactly_one_terminal_event
    (imdecode : List Nat → Option Image) (p : List Char)
    (bs : List Nat) (img : Image)
    (hdec : decodePhase p = .ok bs) (himg : imdecode bs = some img) :
    handle_identify_face imdecode p = [recognizedUser] ∧
    (handle_identify_face imdecode p).length = 1 := by
  have h : handle_identify_face imdecode p = [recognizedUser] := by
    simp [handle_identify_face, hdec, himg]
  exact ⟨h, by simp [h]⟩

/-- Witness for C1 at the payload `"AAAA"` with an image decoder that
accepts its byte buffer. -/
theorem valid_image_exactly_one_terminal_event_witness :
    decodePhase ("AAAA".toList) = .ok [0, 0, 0] ∧
    imdecodeAll [0, 0, 0] = some ⟨[0, 0, 0]⟩ ∧
    (handle_identify_face imdecodeAll ("AAAA".toList) = [recognizedUser] ∧
     (handle_identify_face imdecodeAll ("AAAA".toList)).length = 1) :=
  ⟨rfl, rfl,
   valid_image_exactly_one_terminal_event imdecodeAll _ [0, 0, 0] ⟨[0, 0, 0]⟩
     rfl rfl⟩

/-- C2 counterexample: the payload `"not-valid-base64!!"` does fail
base64 decoding (the claim's `BadEncoding` case), but the handler does
NOT drop it silently: the raised `binascii.Error` lands in the
`except Exception` block of `handle_identify_face`, which emits an
`auth-fail` event to the client. -/
theorem malformed_base64_not_silent_counterexample :
    decodePhase ("not-valid-base64!!".toList) = .error .badBase64 ∧
    handle_identify_face imdecodeAll ("not-valid-base64!!".toList) =
      [Event.authFail] ∧
    handle_identify_face imdecodeAll ("not-valid-base64!!".toList) ≠ [] :=
  ⟨rfl, rfl, by decide⟩

/-- C2 amended: for every payload whose base64 decoding fails, the
handler emits exactly one `auth-fail` event to the originating session
(the decode error is caught by the handler's `except Exception` block),
rather than dropping the event silently. -/
theorem malformed_base64_emits_auth_fail
    (imdecode : List Nat → Option Image) (p : List Char) (e : DecodeError)
    (hdec : decodePhase p = .error e) :
    handle_identify_face imdecode p = [Event.authFail] := by
  unfold handle_identify_face
  rw [hdec]

/-- Witness for the amended C2 at the payload `"not-valid-base64!!"`. -/
theorem malformed_base64_emits_auth_fail_witness :
    decodePhase ("not-valid-base64!!".toList) = .error .badBase64 ∧
    handle_identify_face imdecodeNone ("not-valid-base64!!".toList) =
      [Event.authFail] :=
  ⟨rfl, malformed_base64_emits_auth_fail imdecodeNone _ .badBase64 rfl⟩

/-- C5: for every inbound payload whose base64 data decodes to a byte
buffer that does not parse as an image (`cv2.imdecode` returns `None`),
the handler returns with no outbound event of any kind (silent drop). -/
theorem corrupt_image_silent_drop
    (imdecode : List Nat → Option Image) (p : List Char) (bs : List Nat)
    (hdec : decodePhase p = .ok bs) (himg : imdecode bs = none) :
    handle_identify_face imdecode p = [] := by
  simp [handle_identify_face, hdec, himg]

/-- Witness for C5 at the payload `"AAAA"` with an image decoder that
rejects its byte buffer. -/
theorem corrupt_image_silent_drop_witness :
    decodePhase ("AAAA".toList) = .ok [0, 0, 0] ∧
    imdecodeNone [0, 0, 0] = none ∧
    handle_identify_face imdecodeNone ("AAAA".toList) = [] :=
  ⟨rfl, rfl, corrupt_image_silent_drop imdecodeNone _ [0, 0, 0] rfl rfl⟩

/-- C7: no error from decoding or recognition escapes the handler — on
every payload the handler resolves to a silent drop, a single
`auth-success`, or a single `auth-fail`; in particular every decode
error is mapped to the `auth-fail` emission, never a crashed handler. -/
theorem handler_never_crashes
    (imdecode : List Nat → Option Image) (p : List Char) :
    (handle_identify_face imdecode p = [] ∨
     handle_identify_face imdecode p = [recognizedUser] ∨
     handle_identify_face imdecode p = [Event.authFail]) ∧
    (∀ e : DecodeError, decodePhase p = .error e →
       handle_identify_face imdecode p = [Event.authFail]) := by
  cases hdec : decodePhase p with
  | error e =>
    have h : handle_identify_face imdecode p = [Event.authFail] := by
      simp [handle_identify_face, hdec]
    exact ⟨Or.inr (Or.inr h), fun _ _ => h⟩
  | ok bs =>
    cases himg : imdecode bs with
    | none =>
      have h : handle_identify_face imdecode p = [] := by
        simp [handle_identify_face, hdec, himg]
      refine ⟨Or.inl h, fun e he => ?_⟩
      cases he
    | some img =>
      have h : handle_identify_face imdecode p = [recognizedUser] := by
        simp [handle_identify_face, hdec, himg]
      refine ⟨Or.inr (Or.inl h), fun e he => ?_⟩
      cases he

/-- Witness for C7 at the payload `"AAAA"`. -/
theorem handler_never_crashes_witness :
    (handle_identify_face imdecodeAll ("AAAA".toList) = [] ∨
     handle_identify_face imdecodeAll ("AAAA".toList) = [recognizedUser] ∨
     handle_identify_face imdecodeAll ("AAAA".toList) = [Event.authFail]) ∧
    (∀ e : DecodeError, decodePhase ("AAAA".toList) = .error e →
       handle_identify_face imdecodeAll ("AAAA".toList) = [Event.authFail]) :=
  handler_never_crashes imdecodeAll ("AAAA".toList)

/-- C9: the identification result is independent of the image content —
any two payloads that both decode to valid images produce identical
outbound events, namely the constant
`auth-success {id: "p123", name: "김철수"}`, so nothing about the
submitted image flows into the outbound event. -/
theorem result_independent_of_image
    (imdecode : List Nat → Option Image) (p1 p2 : List Char)
    (b1 b2 : List Nat) (i1 i2 : Image)
    (h1 : decodePhase p1 = .ok b1) (h1i : imdecode b1 = some i1)
    (h2 : decodePhase p2 = .ok b2) (h2i : imdecode b2 = some i2) :
    handle_identify_face imdecode p1 = handle_identify_face imdecode p2 ∧
    handle_identify_face imdecode p1 =
      [Event.authSuccess "p123" "김철수"] := by
  have e1 : handle_identify_face imdecode p1 =
      [Event.authSuccess "p123" "김철수"] := by
    simp [handle_identify_face, h1, h1i, recognizedUser]
  have e2 : handle_identify_face imdecode p2 =
      [Event.authSuccess "p123" "김철수"] := by
    simp [handle_identify_face, h2, h2i, recognizedUser]
  exact ⟨e1.trans e2.symm, e1⟩

/-- Witness for C9 at the distinct payloads `"AAAA"` (bytes `[0,0,0]`)
and `"////"` (bytes `[255,255,255]`). -/
theorem result_independent_of_image_witness :
    decodePhase ("AAAA".toList) = .ok [0, 0, 0] ∧
    decodePhase ("////".toList) = .ok [255, 255, 255] ∧
    (handle_identify_face imdecodeAll ("AAAA".toList) =
       handle_identify_face imdecodeAll ("////".toList) ∧
     handle_identify_face imdecodeAll ("AAAA".toList) =
       [Event.authSuccess "p123" "김철수"]) :=
  ⟨rfl, rfl,
   result_independent_of_image imdecodeAll _ _ [0, 0, 0] [255, 255, 255]
     ⟨[0, 0, 0]⟩ ⟨[255, 255, 255]⟩ rfl rfl rfl rfl⟩

/-- C10: the empty payload contains no comma, base64-decodes to the
empty byte buffer, and — the image decoder yielding no image on the
empty buffer — the handler returns silently with no outbound event and
no fault. -/
theorem empty_payload_silent
    (imdecode : List Nat → Option Image) (hnone : imdecode [] = none) :
    (',' ∉ ("".toList)) ∧
    decodePhase ("".toList) = .ok [] ∧
    handle_identify_face imdecode ("".toList) = [] := by
  refine ⟨by decide, rfl, ?_⟩
  simp [handle_identify_face, hnone,
    show decodePhase [] = Except.ok [] from rfl]

/-- Witness for C10 with the rejecting image decoder. -/
theorem empty_payload_silent_witness :
    imdecodeNone [] = none ∧
    ((',' ∉ ("".toList)) ∧
     decodePhase ("".toList) = .ok [] ∧
     handle_identify_face imdecodeNone ("".toList) = []) :=
  ⟨rfl, empty_payload_silent imdecodeNone rfl⟩

theorem step_preserves_disconnected (imdecode : List Nat → Option Image)
    (st : ServerState) (a : Action) (s : String)
    (hs : s ∉ st.connected) (ha : a ≠ Action.openConn s) :
    s ∉ (step imdecode st a).connected ∧
    deliveredTo (step imdecode st a) s = deliveredTo st s := by
  cases a with
  | openConn s2 =>
    have hne : s2 ≠ s := fun h => ha (by rw [h])
    refine ⟨?_, rfl⟩
    intro hmem
    rcases List.mem_cons.mp hmem with h | h
    · exact hne h.symm
    · exact hs h
  | recv s2 p =>
    cases hsync : syncPhase imdecode p with
    | failNow =>
      have hred : step imdecode st (.recv s2 p) = emitTo st s2 .authFail := by
        simp [step, hsync]
      rw [hred, emitTo_connected]
      exact ⟨hs, deliveredTo_emitTo st s s2 _ hs⟩
    | dropNow =>
      have hred : step imdecode st (.recv s2 p) = st := by
        simp [step, hsync]
      rw [hred]
      exact ⟨hs, rfl⟩
    | suspendRecognition =>
      have hred : step imdecode st (.recv s2 p) =
          { st with pending := st.pending ++ [⟨s2⟩] } := by
        simp [step, hsync]
      rw [hred]
      exact ⟨hs, rfl⟩
  | wake =>
    cases hp : st.pending with
    | nil =>
      have hred : step imdecode st .wake = st := by
        simp [step, hp]
      rw [hred]
      exact ⟨hs, rfl⟩
    | cons t rest =>
      have hred : step imdecode st .wake =
          emitTo { st with pending := rest } t.sid recognizedUser := by
        simp [step, hp]
      rw [hred, emitTo_connected]
      exact ⟨hs, deliveredTo_emitTo { st with pending := rest } s t.sid _ hs⟩
  | close s2 =>
    refine ⟨?_, rfl⟩
    intro hmem
    exact hs (List.mem_of_mem_filter hmem)

/-- C4: once a session has disconnected (and is not reconnected), no
continuation of the event loop ever delivers an outbound event to it —
in particular a recognition left outstanding at disconnect resumes,
attempts its reply on the departed sid, and the emit is dropped; the
machine is total, so no unhandled fault is raised either. -/
theorem disconnect_suppresses_later_replies
    (imdecode : List Nat → Option Image) (st : ServerState)
    (acts : List Action) (s : String)
    (hs : s ∉ st.connected) (hopen : Action.openConn s ∉ acts) :
    s ∉ (run imdecode st acts).connected ∧
    deliveredTo (run imdecode st acts) s = deliveredTo st s := by
  induction acts generalizing st with
  | nil => exact ⟨hs, rfl⟩
  | cons a as ih =>
    have ha : a ≠ Action.openConn s := by
      intro h
      exact hopen (h ▸ List.mem_cons_self a as)
    have hstep := step_preserves_disconnected imdecode st a s hs ha
    have hrest := ih (step imdecode st a) hstep.1
      (fun h => hopen (List.mem_cons_of_mem a h))
    exact ⟨hrest.1, hrest.2.trans hstep.2⟩

/-- Witness for C4: session `"s1"` has disconnected while its
recognition is still outstanding; when the recognition resumes
(`Action.wake`), no event is delivered to `"s1"`. -/
theorem disconnect_suppresses_later_replies_witness :
    ("s1" ∉ (ServerState.mk [] [⟨"s1"⟩] []).connected) ∧
    (Action.openConn "s1" ∉ [Action.wake]) ∧
    ("s1" ∉ (run imdecodeAll (ServerState.mk [] [⟨"s1"⟩] [])
        [Action.wake]).connected ∧
     deliveredTo (run imdecodeAll (ServerState.mk [] [⟨"s1"⟩] [])
        [Action.wake]) "s1" =
       deliveredTo (ServerState.mk [] [⟨"s1"⟩] []) "s1") :=
  ⟨by decide, by decide,
   disconnect_suppresses_later_replies imdecodeAll _ _ _ (by decide)
     (by decide)⟩

/-- C3 counterexample: with session `"s1"` connected, two back-to-back
`identify-face` events with the valid payload `"AAAA"` leave TWO
recognitions concurrently outstanding for `"s1"`, and no `auth-fail`
(indeed no event at all) has been delivered: the code has no
reject-with-busy guard, contradicting the claim. -/
theorem no_busy_guard_counterexample :
    (run imdecodeAll (ServerState.mk ["s1"] [] [])
       [Action.recv "s1" ("AAAA".toList),
        Action.recv "s1" ("AAAA".toList)]).pending =
      [⟨"s1"⟩, ⟨"s1"⟩] ∧
    deliveredTo (run imdecodeAll (ServerState.mk ["s1"] [] [])
       [Action.recv "s1" ("AAAA".toList),
        Action.recv "s1" ("AAAA".toList)]) "s1" = [] := by
  constructor <;> rfl

/-- C3 amended: the reference code processes a second `identify-face`
event arriving during an outstanding recognition without any guard: it
starts a second concurrently outstanding recognition for the same
session and emits no immediate `auth-fail`; both recognitions later
resolve, each delivering its own `auth-success` to the session. -/
theorem no_busy_guard_two_concurrent_recognitions
    (imdecode : List Nat → Option Image) (s : String) (p1 p2 : List Char)
    (h1 : syncPhase imdecode p1 = .suspendRecognition)
    (h2 : syncPhase imdecode p2 = .suspendRecognition) :
    (run imdecode (ServerState.mk [s] [] [])
       [Action.recv s p1, Action.recv s p2]).pending = [⟨s⟩, ⟨s⟩] ∧
    deliveredTo (run imdecode (ServerState.mk [s] [] [])
       [Action.recv s p1, Action.recv s p2]) s = [] ∧
    deliveredTo (run imdecode (ServerState.mk [s] [] [])
       [Action.recv s p1, Action.recv s p2, Action.wake, Action.wake]) s =
      [recognizedUser, recognizedUser] := by
  refine ⟨?_, ?_, ?_⟩ <;>
    simp [run, step, h1, h2, emitTo, deliveredTo]

/-- Witness for the amended C3 at session `"s1"` and payload `"AAAA"`
sent twice. -/
theorem no_busy_guard_two_concurrent_recognitions_witness :
    syncPhase imdecodeAll ("AAAA".toList) = .suspendRecognition ∧
    ((run imdecodeAll (ServerState.mk ["s1"] [] [])
        [Action.recv "s1" ("AAAA".toList),
         Action.recv "s1" ("AAAA".toList)]).pending = [⟨"s1"⟩, ⟨"s1"⟩] ∧
     deliveredTo (run imdecodeAll (ServerState.mk ["s1"] [] [])
        [Action.recv "s1" ("AAAA".toList),
         Action.recv "s1" ("AAAA".toList)]) "s1" = [] ∧
     deliveredTo (run imdecodeAll (ServerState.mk ["s1"] [] [])
        [Action.recv "s1" ("AAAA".toList),
         Action.recv "s1" ("AAAA".toList), Action.wake, Action.wake])
       "s1" = [recognizedUser, recognizedUser]) :=
  ⟨rfl,
   no_busy_guard_two_concurrent_recognitions imdecodeAll "s1" _ _ rfl rfl⟩

/-- C8: an `identify-face` event whose payload decodes to a valid image
delivers nothing before the simulated recognition latency elapses, and
once it does (`Action.wake`), the originating session receives exactly
one `auth-success` whose payload has the non-empty id `"p123"` and the
non-empty name `"김철수"`. -/
theorem valid_image_auth_success_after_latency
    (imdecode : List Nat → Option Image) (s : String) (p : List Char)
    (h : syncPhase imdecode p = .suspendRecognition) :
    deliveredTo (run imdecode (ServerState.mk [s] [] [])
       [Action.recv s p]) s = [] ∧
    deliveredTo (run imdecode (ServerState.mk [s] [] [])
       [Action.recv s p, Action.wake]) s =
      [Event.authSuccess "p123" "김철수"] ∧
    "p123" ≠ "" ∧ "김철수" ≠ "" := by
  refine ⟨?_, ?_, by decide, by decide⟩ <;>
    simp [run, step, h, emitTo, deliveredTo, recognizedUser]

/-- Witness for C8 at session `"s1"` and payload `"AAAA"`. -/
theorem valid_image_auth_success_after_latency_witness :
    syncPhase imdecodeAll ("AAAA".toList) = .suspendRecognition ∧
    (deliveredTo (run imdecodeAll (ServerState.mk ["s1"] [] [])
        [Action.recv "s1" ("AAAA".toList)]) "s1" = [] ∧
     deliveredTo (run imdecodeAll (ServerState.mk ["s1"] [] [])
        [Action.recv "s1" ("AAAA".toList), Action.wake]) "s1" =
       [Event.authSuccess "p123" "김철수"] ∧
     "p123" ≠ "" ∧ "김철수" ≠ "") :=
  ⟨rfl,
   valid_image_auth_success_after_latency imdecodeAll "s1" _ rfl⟩

end FaceServer
